import Mathlib

/-!
Shallow embedding of `dark_side_of_the_time.py`, a personal time-tracking
report generator.

Modelling conventions:

* A Python `datetime` (naive, no timezone, microseconds unused by this
  program) is modelled as an `Int` counting seconds since
  0001-01-01 00:00:00, the epoch of Python's proleptic-Gregorian ordinal
  calendar.  Day number 0 (ordinal 1) is a Monday, so
  `weekday t = (t / 86400) % 7` reproduces Python's `datetime.weekday()`
  convention Monday = 0, …, Sunday = 6.  Comparison of datetimes is integer
  comparison; `timedelta(days = n)` is `n * 86400` seconds.
* Python's `int(x)` on a float quotient truncates toward zero; the program's
  `int(delta.total_seconds() / 60)` is therefore `Int.tdiv seconds 60`.
* A Python `assert` failure (`AssertionError`), a `KeyError`, a raised
  `ValueError` and a `ZeroDivisionError` are all modelled by returning
  `none` / `Except.error`: fallible code returns `Option` or `Except`.
* A CSV record (Python `dict[str, str]`) is modelled as an association list
  with last-binding-wins lookup, matching Python dict-comprehension
  semantics.
* Python's `str.strip()` is modelled by `pystrip` (drop whitespace from both
  ends of the character list); `needle in haystack` on strings is substring
  containment, modelled by `substr_mem`.
* Float formatting (`f"{x:.2f}"`) is modelled by rounding the exact rational
  value to hundredths (round half to even); this agrees with CPython except
  on inputs where binary floating-point error crosses a rounding boundary,
  which none of the verified claims depend on.
-/

/- A datetime is a plain `Int`: seconds since 0001-01-01 00:00:00
(proleptic Gregorian, a Monday).  The alias is kept as prose rather than an
`abbrev` so that arithmetic automation sees the underlying integers. -/

/-- Calendar date of a timestamp, as a day number (models `datetime.date()`;
two timestamps compare date-equal exactly when their day numbers agree). -/
def dateOf (t : Int) : Int := t / 86400

/-- Models `date.replace(hour=0, minute=0, second=0, microsecond=0)`:
the midnight that starts the timestamp's calendar day. -/
def get_date_at_midnight (t : Int) : Int := 86400 * (t / 86400)

/-- Models Python's `datetime.weekday()`: Monday = 0, …, Sunday = 6. -/
def weekday (t : Int) : Int := (t / 86400) % 7

/-- Source: `get_days_since_sunday` — `(date.weekday() + 1) % 7`. -/
def get_days_since_sunday (t : Int) : Int := (weekday t + 1) % 7

/-- Source: `get_sunday_before` —
`get_date_at_midnight(date - timedelta(days=get_days_since_sunday(date)))`. -/
def get_sunday_before (t : Int) : Int :=
  get_date_at_midnight (t - 86400 * get_days_since_sunday t)

/-- Source: the `Activity` dataclass (`end` is a Lean keyword, hence `end_`). -/
structure Activity where
  start : Int
  end_ : Int
  activity_type : String
deriving DecidableEq

namespace Activity

/-- Source: `Activity.get_duration_in_minutes` —
`int((end - start).total_seconds() / 60)` followed by `assert duration >= 0`.
`none` models the `AssertionError`. -/
def get_duration_in_minutes (a : Activity) : Option Int :=
  let duration := Int.tdiv (a.end_ - a.start) 60
  if 0 ≤ duration then some duration else none

/-- Source: `Activity.get_break_duration_in_minutes` —
`int((self.start - previous.end).total_seconds() / 60)` followed by
`assert break_duration >= 0`.  `none` models the `AssertionError`. -/
def get_break_duration_in_minutes (a previous : Activity) : Option Int :=
  let break_duration := Int.tdiv (a.start - previous.end_) 60
  if 0 ≤ break_duration then some break_duration else none

end Activity

/-- Source: `get_daily_activities` — anchors on `activities[-1]` (so the
empty list raises `IndexError`, modelled by `none`) and keeps the activities
whose start date equals the last activity's start date. -/
def get_daily_activities (activities : List Activity) : Option (List Activity) :=
  match activities.getLast? with
  | none => none
  | some last =>
    some (activities.filter (fun x => decide (dateOf x.start = dateOf last.start)))

/-- Source: `get_this_week_activities` — keeps activities with
`sunday <= x.start` where `sunday = get_sunday_before(activities[-1].start)`. -/
def get_this_week_activities (activities : List Activity) : Option (List Activity) :=
  match activities.getLast? with
  | none => none
  | some last =>
    let sunday := get_sunday_before last.start
    some (activities.filter (fun x => decide (sunday ≤ x.start)))

/-- Source: `get_last_week_activities` — keeps activities with
`previous_sunday <= x.start < sunday`, `previous_sunday = sunday - 7 days`. -/
def get_last_week_activities (activities : List Activity) : Option (List Activity) :=
  match activities.getLast? with
  | none => none
  | some last =>
    let sunday := get_sunday_before last.start
    let previous_sunday := sunday - 7 * 86400
    some (activities.filter
      (fun x => decide (previous_sunday ≤ x.start ∧ x.start < sunday)))

/-- Source: `get_total_duration` — `sum(x.get_duration_in_minutes() for x in
activities)`; any assertion failure aborts the sum. -/
def get_total_duration : List Activity → Option Int
  | [] => some 0
  | a :: rest =>
    match a.get_duration_in_minutes with
    | none => none
    | some d => (get_total_duration rest).map (fun t => d + t)

/-- Helper for `get_total_break_duration`: the loop body once the previous
activity is known.  The gap is only counted (and only assertion-checked) when
the previous end and the next start share a calendar date. -/
def get_total_break_duration_from (previous : Activity) :
    List Activity → Option Int
  | [] => some 0
  | a :: rest =>
    if dateOf a.start = dateOf previous.end_ then
      match a.get_break_duration_in_minutes previous with
      | none => none
      | some b => (get_total_break_duration_from a rest).map (fun t => b + t)
    else
      get_total_break_duration_from a rest

/-- Source: `get_total_break_duration` — sums
`activity.get_break_duration_in_minutes(previous)` over consecutive pairs
whose dates agree; the first activity contributes nothing. -/
def get_total_break_duration : List Activity → Option Int
  | [] => some 0
  | a :: rest => get_total_break_duration_from a rest

/-- Models Python `str.strip()` on the character list: drop leading and
trailing whitespace. -/
def strip_chars (cs : List Char) : List Char :=
  ((cs.dropWhile Char.isWhitespace).reverse.dropWhile Char.isWhitespace).reverse

/-- Models Python `str.strip()`. -/
def pystrip (s : String) : String := ⟨strip_chars s.data⟩

/-- Substring containment on character lists (`needle in haystack`
for Python strings; the empty needle is contained in everything). -/
def substr_mem (needle : List Char) : List Char → Bool
  | [] => needle.isEmpty
  | c :: t => needle.isPrefixOf (c :: t) || substr_mem needle t

/-- Models Python `needle in haystack` for strings. -/
def str_in (needle haystack : String) : Bool := substr_mem needle.data haystack.data

/-- A CSV record: Python `dict[str, str]` as an association list. -/
abbrev Record := List (String × String)

/-- Dict lookup with Python semantics: when a comprehension maps two
entries to the same key, the later binding wins. -/
def dict_get (d : Record) (key : String) : Option String :=
  d.foldl (fun acc p => if p.1 = key then some p.2 else acc) none

/-- The required CSV fields checked by `Activity.validate_csv`. -/
def required_fields : List String := ["year", "date", "time_start", "activity_type"]

/-- Source: `Activity.validate_csv` — builds `{k.strip(): v}` (keys stripped,
values NOT stripped) and asserts `field in values and values[field]` for each
required field; `false` models the `AssertionError`.  Note the truthiness
test is on the raw value, so a whitespace-only value passes. -/
def validate_csv (dirty_values : Record) : Bool :=
  let values := dirty_values.map (fun p => (pystrip p.1, p.2))
  required_fields.all (fun f =>
    match dict_get values f with
    | none => false
    | some v => !(v == ""))

/-- Lookup in the `{k.strip(): v.strip()}` dict built by
`Activity.deserialize`. -/
def get_clean_value (dirty_values : Record) (key : String) : Option String :=
  dict_get (dirty_values.map (fun p => (pystrip p.1, pystrip p.2))) key

/-- Proleptic-Gregorian leap year, as in Python's `datetime`. -/
def is_leap (y : Nat) : Bool := y % 4 == 0 && (y % 100 != 0 || y % 400 == 0)

/-- Length of month `m` (1–12) of year `y`. -/
def days_in_month (y m : Nat) : Nat :=
  if m = 2 then (if is_leap y then 29 else 28)
  else if m = 4 ∨ m = 6 ∨ m = 9 ∨ m = 11 then 30
  else 31

/-- Days in year `y` before the first of month `m`. -/
def days_before_month (y m : Nat) : Nat :=
  ((List.range (m - 1)).map (fun i => days_in_month y (i + 1))).sum

/-- Days before January 1 of year `y` (Python `date.toordinal` minus one for
`y m=1 d=1`). -/
def days_before_year (y : Nat) : Nat :=
  365 * (y - 1) + (y - 1) / 4 - (y - 1) / 100 + (y - 1) / 400

/-- Day number of a calendar date: 0001-01-01 is day 0 (a Monday), matching
Python's `toordinal() - 1`. -/
def day_number (y m d : Nat) : Nat :=
  days_before_year y + days_before_month y m + (d - 1)

/-- Split a character list at every character satisfying `p`, keeping empty
pieces. -/
def split_pred (p : Char → Bool) : List Char → List (List Char)
  | [] => [[]]
  | c :: rest =>
    if p c then [] :: split_pred p rest
    else
      match split_pred p rest with
      | [] => [[c]]
      | h :: t => (c :: h) :: t

/-- Split a character list at every occurrence of `sep`, keeping empty
pieces (used for the literal `:` of the `%H:%M` directive, which admits no
surrounding whitespace). -/
def split_char (sep : Char) (cs : List Char) : List (List Char) :=
  split_pred (fun c => c == sep) cs

/-- The characters matched by `\s` in a CPython `str` regex (and hence by
the whitespace of a `strptime` format): 0x09–0x0d, 0x1c–0x1f, space, NEL,
NBSP, and the Unicode space separators. -/
def py_isspace (c : Char) : Bool :=
  decide ((9 ≤ c.toNat ∧ c.toNat ≤ 13) ∨ (28 ≤ c.toNat ∧ c.toNat ≤ 31) ∨
    c.toNat = 32 ∨ c.toNat = 133 ∨ c.toNat = 160 ∨ c.toNat = 5760 ∨
    (8192 ≤ c.toNat ∧ c.toNat ≤ 8202) ∨ c.toNat = 8232 ∨ c.toNat = 8233 ∨
    c.toNat = 8239 ∨ c.toNat = 8287 ∨ c.toNat = 12288)

/-- The whitespace-run tokens of a character list: CPython compiles every
whitespace run of a `strptime` format to `\s+`, so the data decomposes into
maximal whitespace-free tokens. -/
def split_ws (cs : List Char) : List (List Char) :=
  (split_pred py_isspace cs).filter (fun t => !t.isEmpty)

/-- Tokenisation step of `strptime` for format `"%Y %b %d %H:%M"`: the
format neither starts nor ends with whitespace, so leading whitespace fails
the `%Y` match and trailing whitespace is "unconverted data" — both raise
`ValueError`; otherwise the data splits into whitespace-run tokens. -/
def strptime_tokens (cs : List Char) : Option (List (List Char)) :=
  match cs.head?, cs.getLast? with
  | some c0, some c1 =>
    if py_isspace c0 || py_isspace c1 then none
    else some (split_ws cs)
  | _, _ => none

/-- Numeric field: all digits, non-empty (helper for the `strptime` model). -/
def parse_nat (cs : List Char) : Option Nat :=
  if cs ≠ [] ∧ cs.all Char.isDigit then
    some (cs.foldl (fun acc c => 10 * acc + (c.toNat - 48)) 0)
  else none

/-- Models `%Y`: exactly four digits, and `datetime` requires year ≥ 1. -/
def parse_year (cs : List Char) : Option Nat :=
  match parse_nat cs with
  | some y => if cs.length = 4 ∧ 1 ≤ y then some y else none
  | none => none

/-- Models `%d` / `%H` / `%M` digit groups: one or two digits. -/
def parse_two_digit (cs : List Char) : Option Nat :=
  if cs.length = 1 ∨ cs.length = 2 then parse_nat cs else none

/-- Models `%b`: case-insensitive English month abbreviation. -/
def month_from_abbrev (cs : List Char) : Option Nat :=
  let l := cs.map Char.toLower
  if l = "jan".data then some 1
  else if l = "feb".data then some 2
  else if l = "mar".data then some 3
  else if l = "apr".data then some 4
  else if l = "may".data then some 5
  else if l = "jun".data then some 6
  else if l = "jul".data then some 7
  else if l = "aug".data then some 8
  else if l = "sep".data then some 9
  else if l = "oct".data then some 10
  else if l = "nov".data then some 11
  else if l = "dec".data then some 12
  else none

/-- Models `%H:%M`: hour 0–23, minute 0–59, as seconds past midnight. -/
def parse_time_of_day (cs : List Char) : Option Int :=
  match split_char ':' cs with
  | [hs, ms] =>
    match parse_two_digit hs, parse_two_digit ms with
    | some h, some m =>
      if h ≤ 23 ∧ m ≤ 59 then some ((3600 * h + 60 * m : Nat) : Int) else none
    | _, _ => none
  | _ => none

/-- Models `datetime.strptime(s, "%Y %b %d %H:%M")`: the data must consist
of exactly four whitespace-run-separated tokens with no leading or trailing
whitespace (CPython turns the format's spaces into `\s+`, so tabs or
multiple spaces between tokens are accepted).  `none` models the raised
`ValueError`, including out-of-range day-of-month.  Digits are modelled as
ASCII digits; CPython's `\d` also admits other Unicode decimal digits,
which never affects any property verified here since the day tokens of the
two timestamps of one record are shared either way. -/
def strptime_year_date_time (s : String) : Option Int :=
  match strptime_tokens s.data with
  | some [ys, ms, ds, ts] =>
    match parse_year ys, month_from_abbrev ms, parse_two_digit ds,
        parse_time_of_day ts with
    | some y, some m, some d, some t =>
      if 1 ≤ d ∧ d ≤ days_in_month y m then
        some (86400 * (day_number y m d : Int) + t)
      else none
    | _, _, _, _ => none
  | _ => none

/-- Failure modes of `Activity.deserialize`: `validationError` is the
`validate_csv` assertion, `schemaError` the schema `ValueError`, `keyError`
a missing dict key (only reachable for `time_end`), `dateParseError` a
`strptime` `ValueError`. -/
inductive ParseFailure
  | validationError
  | schemaError
  | keyError
  | dateParseError
deriving DecidableEq

/-- The date-building tail of `Activity.deserialize` (lines 30–43 of the
source): default an empty `time_end` to `time_start`, build the two
`"{year} {date} {time}"` strings and parse both. -/
def build_activity (year_str date_str time_start time_end0 activity_type : String) :
    Except ParseFailure Activity :=
  let time_end := if time_end0 = "" then time_start else time_end0
  let date_start_str := year_str ++ " " ++ date_str ++ " " ++ time_start
  let date_end_str := year_str ++ " " ++ date_str ++ " " ++ time_end
  match strptime_year_date_time date_start_str,
      strptime_year_date_time date_end_str with
  | some s, some e => .ok ⟨s, e, activity_type⟩
  | _, _ => .error .dateParseError

/-- Source: `Activity.deserialize` — validate, strip keys and values, check
schema membership (substring containment), then build the activity from the
stripped fields. -/
def deserialize (dirty_values : Record) (schema : String) :
    Except ParseFailure Activity :=
  if !(validate_csv dirty_values) then .error .validationError else
  match get_clean_value dirty_values "activity_type" with
  | none => .error .keyError
  | some at0 =>
    let activity_type := pystrip at0
    if !(str_in activity_type schema) then .error .schemaError else
    match get_clean_value dirty_values "year", get_clean_value dirty_values "date",
        get_clean_value dirty_values "time_start",
        get_clean_value dirty_values "time_end" with
    | some y0, some d0, some ts0, some te0 =>
      build_activity (pystrip y0) (pystrip d0) (pystrip ts0) (pystrip te0)
        activity_type
    | _, _, _, _ => .error .keyError

/-- Round the rational `num / den` (with `den > 0` at every use site) to the
nearest integer, ties to even — the rounding used by `f"...:.2f}"` on the
exact value. -/
def round_half_even (num den : Int) : Int :=
  let q := num / den
  let r := num % den
  if 2 * r < den then q
  else if den < 2 * r then q + 1
  else if q % 2 = 0 then q else q + 1

/-- Models `f"{num / den:.2f}"` at exact-rational precision: the quotient
rounded to hundredths and printed with two decimal places. -/
def format_2f (num den : Int) : String :=
  let h := round_half_even (100 * num) den
  let sign := if h < 0 then "-" else ""
  let m := h.natAbs
  sign ++ toString (m / 100) ++ "." ++
    (if m % 100 < 10 then "0" else "") ++ toString (m % 100)

/-- One step of `activity_totals[activity.activity_type] += duration` on an
insertion-ordered association list (Python dicts preserve insertion order). -/
def add_total (totals : List (String × Int)) (key : String) (v : Int) :
    List (String × Int) :=
  match totals with
  | [] => [(key, v)]
  | (k0, v0) :: rest =>
    if k0 = key then (k0, v0 + v) :: rest else (k0, v0) :: add_total rest key v

/-- The accumulation loop of `create_activity_duration_report`: per-type
totals (insertion-ordered) and the grand total, aborting on an assertion
failure inside `get_duration_in_minutes`. -/
def accumulate_durations (acc : List (String × Int) × Int) :
    List Activity → Option (List (String × Int) × Int)
  | [] => some acc
  | a :: rest =>
    match a.get_duration_in_minutes with
    | none => none
    | some d => accumulate_durations (add_total acc.1 a.activity_type d, acc.2 + d) rest

/-- Insertion of one entry into a list already sorted by descending
duration: the new entry moves ahead only of strictly smaller values, so it
lands after every earlier entry with an equal value. -/
def insert_desc (x : String × Int) : List (String × Int) → List (String × Int)
  | [] => [x]
  | y :: ys => if y.2 < x.2 then x :: y :: ys else y :: insert_desc x ys

/-- Models `sorted(activity_totals.items(), key=lambda x: x[1], reverse=True)`
as a stable insertion sort: entries are folded left to right into the sorted
prefix, and `insert_desc` never moves a later entry ahead of an equal
earlier one, matching the stability guarantee of Python's `sorted` (every
stable sort computes the same list). -/
def sort_by_duration (l : List (String × Int)) : List (String × Int) :=
  l.foldl (fun acc x => insert_desc x acc) []

/-- The row loop of `create_activity_duration_report`.  Each row divides by
`total`; when `total = 0` Python raises `ZeroDivisionError` at the first row,
modelled by `none`. -/
def duration_table_rows (total : Int) : List (String × Int) → Option (List String)
  | [] => some []
  | (k, v) :: rest =>
    if total = 0 then none
    else (duration_table_rows total rest).map (fun rs =>
      ("| " ++ k ++ " | " ++ format_2f v 60 ++ "| " ++ format_2f v total ++ " |") :: rs)

/-- Source: `create_activity_duration_report` — empty input renders `""`;
otherwise header plus one row per activity type, sorted by descending total
duration.  `none` models an `AssertionError` or the unguarded
`ZeroDivisionError` when the grand total is zero. -/
def create_activity_duration_report (activities : List Activity) : Option String :=
  match activities with
  | [] => some ""
  | _ :: _ =>
    match accumulate_durations ([], 0) activities with
    | none => none
    | some (totals, total_duration) =>
      match duration_table_rows total_duration (sort_by_duration totals) with
      | none => none
      | some rows =>
        some (String.intercalate "\n"
          ("| Activity Type | Total Duration (h) | Relative Duration |" ::
           "|---------------|--------------------|-------------------|" :: rows))

/-- Source: `create_previous_week_activity_report` — `""` only when the whole
input is empty; otherwise always renders the `# Last Week` heading, the
breakdown table for the Last-Week subset, and the two footer totals. -/
def create_previous_week_activity_report (activities : List Activity) :
    Option String :=
  match activities with
  | [] => some ""
  | _ :: _ =>
    match get_last_week_activities activities with
    | none => none
    | some week_activities =>
      match get_total_duration week_activities,
          get_total_break_duration week_activities,
          create_activity_duration_report week_activities with
      | some total, some brk, some table =>
        some (String.intercalate "\n"
          ["# Last Week", "", table, "",
           "**Total Duration:** " ++ format_2f total 60 ++ "h",
           "**Total Break Duration:** " ++ format_2f brk 60 ++ "h"])
      | _, _, _ => none

/-- Source: `create_weekly_activity_report` — same shape as the previous-week
report but over the This-Week subset, with the `# This Week` heading. -/
def create_weekly_activity_report (activities : List Activity) : Option String :=
  match activities with
  | [] => some ""
  | _ :: _ =>
    match get_this_week_activities activities with
    | none => none
    | some week_activities =>
      match get_total_duration week_activities,
          get_total_break_duration week_activities,
          create_activity_duration_report week_activities with
      | some total, some brk, some table =>
        some (String.intercalate "\n"
          ["# This Week", "", table, "",
           "**Total Duration:** " ++ format_2f total 60 ++ "h",
           "**Total Break Duration:** " ++ format_2f brk 60 ++ "h"])
      | _, _, _ => none

/-- Claim-side restatement of the break-total (helper, after the first
activity): the sum of the whole-minute gaps `start[i] - end[i-1]`, counting a
pair only when the two timestamps share a calendar date. -/
def spec_break_sum_from (previous : Activity) : List Activity → Int
  | [] => 0
  | a :: rest =>
    (if dateOf a.start = dateOf previous.end_
     then Int.tdiv (a.start - previous.end_) 60 else 0) +
    spec_break_sum_from a rest

/-- Claim-side restatement of `totalBreakMinutes` from the specification:
the first activity contributes zero; each later activity contributes its
same-date whole-minute gap to the previous activity's end. -/
def spec_break_sum : List Activity → Int
  | [] => 0
  | a :: rest => spec_break_sum_from a rest

/-- Truncated division by 60 is negative exactly on gaps of at least one full
minute: `int(x / 60)` sends `-59 … -1` to `0`. -/
theorem tdiv_sixty_neg_iff (x : Int) : Int.tdiv x 60 < 0 ↔ x ≤ -60 := by
  rcases le_or_lt 0 x with h | h
  · rw [Int.tdiv_eq_ediv h (by norm_num)]
    omega
  · have h2 : Int.tdiv x 60 = -(Int.tdiv (-x) 60) := by
      rw [← Int.neg_tdiv, neg_neg]
    rw [h2, Int.tdiv_eq_ediv (by omega) (by norm_num)]
    omega

/-- The Sunday boundary never lies after the timestamp it is computed from. -/
theorem get_sunday_before_le (t : Int) : get_sunday_before t ≤ t := by
  unfold get_sunday_before get_date_at_midnight get_days_since_sunday weekday
  omega

/-- If the last element of a list satisfies the filter predicate, it is also
the last element of the filtered list. -/
theorem getLast?_filter_of_pred {α : Type} (p : α → Bool) (l : List α) (a : α)
    (h : l.getLast? = some a) (hp : p a = true) :
    (l.filter p).getLast? = some a := by
  rcases List.getLast?_eq_some_iff.mp h with ⟨ys, rfl⟩
  rw [List.filter_append]
  simp [List.filter, hp]

/-- C1 counterexample: an activity whose `end` precedes its `start` by 30
seconds.  The truncated minute count is `int(-0.5) = 0`, so the
`assert duration >= 0` passes and aggregation silently reports a zero
duration instead of failing — the claim's "however small" is false. -/
theorem c1_counterexample :
    (Activity.mk 63745434000 63745433970 "work").end_ <
      (Activity.mk 63745434000 63745433970 "work").start ∧
    Activity.get_duration_in_minutes (Activity.mk 63745434000 63745433970 "work") =
      some 0 ∧
    get_total_duration [Activity.mk 63745434000 63745433970 "work"] = some 0 :=
  ⟨by decide, by decide, by decide⟩

/-- Unfolding lemma for `get_duration_in_minutes`: expose the `if` behind
the local variable. -/
theorem duration_eq_ite (a : Activity) :
    a.get_duration_in_minutes =
      if 0 ≤ Int.tdiv (a.end_ - a.start) 60
      then some (Int.tdiv (a.end_ - a.start) 60) else none := rfl

/-- Unfolding lemma for `get_break_duration_in_minutes`. -/
theorem break_eq_ite (a previous : Activity) :
    a.get_break_duration_in_minutes previous =
      if 0 ≤ Int.tdiv (a.start - previous.end_) 60
      then some (Int.tdiv (a.start - previous.end_) 60) else none := rfl

/-- C1 (amended): the aggregation assertion (`none`) fires exactly when the
computed whole-minute duration is negative, i.e. when `end` precedes `start`
(resp. when a start precedes the previous same-date end) by at least one full
minute; negative gaps shorter than 60 seconds truncate to zero minutes and
pass.  Since parser-produced timestamps are minute-aligned, every negative
duration among parsed activities does trigger the assertion. -/
theorem c1_amended_assertion_threshold (a previous : Activity) :
    (Activity.get_duration_in_minutes a = none ↔ a.end_ ≤ a.start - 60) ∧
    (Activity.get_break_duration_in_minutes a previous = none ↔
      a.start ≤ previous.end_ - 60) := by
  have h1 := tdiv_sixty_neg_iff (a.end_ - a.start)
  have h2 := tdiv_sixty_neg_iff (a.start - previous.end_)
  constructor
  · rw [duration_eq_ite]
    split
    next h0 => exact iff_of_false (by simp) (by omega)
    next h0 => exact iff_of_true rfl (by omega)
  · rw [break_eq_ite]
    split
    next h0 => exact iff_of_false (by simp) (by omega)
    next h0 => exact iff_of_true rfl (by omega)

/-- The value of `get_break_duration_in_minutes`, when the assertion passes,
is the truncated minute gap. -/
theorem break_duration_value (a previous : Activity) (b : Int)
    (h : a.get_break_duration_in_minutes previous = some b) :
    b = Int.tdiv (a.start - previous.end_) 60 := by
  rw [break_eq_ite] at h
  split at h
  · exact (Option.some.inj h).symm
  · exact absurd h (by simp)

/-- Helper for C6: the break-total loop computes the claim's sum. -/
theorem break_from_eq_spec (l : List Activity) :
    ∀ (previous : Activity) (v : Int),
      get_total_break_duration_from previous l = some v →
      v = spec_break_sum_from previous l := by
  induction l with
  | nil =>
    intro previous v h
    simp only [get_total_break_duration_from] at h
    simp [spec_break_sum_from, ← Option.some.inj h]
  | cons a rest ih =>
    intro previous v h
    unfold get_total_break_duration_from at h
    unfold spec_break_sum_from
    by_cases hd : dateOf a.start = dateOf previous.end_
    · rw [if_pos hd] at h
      cases hb : a.get_break_duration_in_minutes previous with
      | none => rw [hb] at h; exact absurd h (by simp)
      | some b =>
        rw [hb] at h
        cases hr : get_total_break_duration_from a rest with
        | none => rw [hr] at h; exact absurd h (by simp)
        | some t =>
          rw [hr] at h
          simp at h
          have hb2 := break_duration_value a previous b hb
          have ht := ih a t hr
          rw [if_pos hd]
          omega
    · rw [if_neg hd] at h
      rw [if_neg hd, ← ih a v h]
      omega

/-- C6: whenever `get_total_break_duration` succeeds, its value is the sum,
over every activity after the first, of the whole-minute gap to the previous
activity's end, counted only when the two timestamps share a calendar date
(the first activity contributes zero, and day-crossing gaps contribute
nothing, by the shape of `spec_break_sum`). -/
theorem c6_break_total (l : List Activity) (v : Int)
    (h : get_total_break_duration l = some v) : v = spec_break_sum l := by
  cases l with
  | nil =>
    simp only [get_total_break_duration] at h
    simp [spec_break_sum, ← Option.some.inj h]
  | cons a rest =>
    simp only [get_total_break_duration] at h
    simpa [spec_break_sum] using break_from_eq_spec rest a v h

/-- C6 witness: the spec's worked example (09:00–10:00 then 10:15–11:00 on
2021-01-05) has a single counted break of 15 minutes. -/
theorem c6_break_total_witness :
    get_total_break_duration
      [⟨63745434000, 63745437600, "work"⟩, ⟨63745438500, 63745441200, "work"⟩] =
      some 15 ∧
    (15 : Int) = spec_break_sum
      [⟨63745434000, 63745437600, "work"⟩, ⟨63745438500, 63745441200, "work"⟩] :=
  ⟨by decide,
   c6_break_total
     [⟨63745434000, 63745437600, "work"⟩, ⟨63745438500, 63745441200, "work"⟩]
     15 (by decide)⟩

/-- The date-building tail can only succeed or fail with `keyError` or
`dateParseError`, never with the validation assertion. -/
theorem build_activity_not_validation (y d ts te τ : String) :
    build_activity y d ts te τ ≠ .error .validationError := by
  unfold build_activity
  split <;> dsimp only <;> split <;> simp

/-- The date-building tail never fails with the schema error. -/
theorem build_activity_not_schema (y d ts te τ : String) :
    build_activity y d ts te τ ≠ .error .schemaError := by
  unfold build_activity
  split <;> dsimp only <;> split <;> simp

/-- Once validation has passed, `deserialize` can no longer fail with the
validation assertion. -/
theorem deserialize_not_validation (d : Record) (s : String)
    (hv : validate_csv d = true) :
    deserialize d s ≠ .error .validationError := by
  unfold deserialize
  rw [hv]
  simp only [Bool.not_true, Bool.false_eq_true, if_false]
  split
  · simp
  · split
    · simp
    · split
      · exact build_activity_not_validation _ _ _ _ _
      · simp

/-- C7: given that field validation passes (so the schema check is reached)
and `at0` is the record's cleaned `activity_type` value, deserialisation
fails with the schema error exactly when the trimmed activity type is not a
substring of the raw schema text. -/
theorem c7_schema_error_iff (dirty_values : Record) (schema at0 : String)
    (hv : validate_csv dirty_values = true)
    (hat : get_clean_value dirty_values "activity_type" = some at0) :
    deserialize dirty_values schema = .error .schemaError ↔
      str_in (pystrip at0) schema = false := by
  unfold deserialize
  rw [hv, hat]
  simp only [Bool.not_true, Bool.false_eq_true, if_false]
  by_cases hs : str_in (pystrip at0) schema
  · rw [hs]
    refine iff_of_false ?_ (by simp)
    simp only [Bool.not_true, Bool.false_eq_true, if_false]
    split
    · exact build_activity_not_schema _ _ _ _ _
    · simp
  · rw [Bool.eq_false_iff.mpr hs]
    simp

/-- C7 witness: a record whose activity type `"gym"` does not occur in the
schema text `"work,play"` is rejected with the schema error. -/
theorem c7_schema_error_iff_witness :
    deserialize
      [("year", "2021"), ("date", "Jan 05"), ("time_start", "09:00"),
       ("time_end", "10:00"), ("activity_type", "gym")] "work,play" =
      .error .schemaError :=
  (c7_schema_error_iff
    [("year", "2021"), ("date", "Jan 05"), ("time_start", "09:00"),
     ("time_end", "10:00"), ("activity_type", "gym")] "work,play" "gym"
    (by decide) (by decide)).mpr (by decide)

/-- One required-field check of `validate_csv` fails exactly when the field
is absent from the key-stripped dict or bound to the (raw) empty string. -/
theorem field_check_false_iff (d : Record) (f : String) :
    (match dict_get d f with
     | none => false
     | some v => !(v == "")) = false ↔
      (dict_get d f = none ∨ dict_get d f = some "") := by
  cases h : dict_get d f with
  | none => simp
  | some v =>
    simp only [Bool.not_eq_eq_eq_not, Bool.not_false, beq_iff_eq, Option.some.injEq]
    constructor
    · intro hv; right; simpa using hv
    · intro hv; simpa using hv

/-- Validation fails exactly when some required field is missing or
bound to the raw empty string (whitespace-only values count as present). -/
theorem validate_csv_false_iff (d : Record) :
    validate_csv d = false ↔
      ∃ f ∈ required_fields,
        (dict_get (d.map (fun p => (pystrip p.1, p.2))) f = none ∨
         dict_get (d.map (fun p => (pystrip p.1, p.2))) f = some "") := by
  unfold validate_csv
  simp only [List.all_eq_false]
  constructor
  · rintro ⟨f, hf, hp⟩
    exact ⟨f, hf, (field_check_false_iff _ f).mp (Bool.eq_false_iff.mpr hp)⟩
  · rintro ⟨f, hf, hp⟩
    exact ⟨f, hf, by rw [(field_check_false_iff _ f).mpr hp]; simp⟩

/-- C8 counterexample: a record whose `year` value is a single space.  The
claim says a whitespace-only value "is rejected as empty" with the
validation error, but `validate_csv` tests truthiness of the raw value, so
the record passes validation and parsing instead fails later, inside
`strptime` (the stripped year becomes the empty string). -/
theorem c8_counterexample :
    validate_csv
      [("year", " "), ("date", "Jan 05"), ("time_start", "09:00"),
       ("time_end", ""), ("activity_type", "work")] = true ∧
    pystrip " " = "" ∧
    deserialize
      [("year", " "), ("date", "Jan 05"), ("time_start", "09:00"),
       ("time_end", ""), ("activity_type", "work")] "work" =
      .error .dateParseError :=
  ⟨by decide, by decide, rfl⟩

/-- C8 (amended): parsing fails with the validation error exactly when some
required field (`year`, `date`, `time_start`, `activity_type`) is absent
from the key-stripped record or bound to the raw empty string; a value
consisting only of whitespace is truthy and passes validation (it can only
fail later, e.g. in date parsing). -/
theorem c8_amended_validation_iff (dirty_values : Record) (schema : String) :
    deserialize dirty_values schema = .error .validationError ↔
      ∃ f ∈ required_fields,
        (dict_get (dirty_values.map (fun p => (pystrip p.1, p.2))) f = none ∨
         dict_get (dirty_values.map (fun p => (pystrip p.1, p.2))) f = some "") := by
  rw [← validate_csv_false_iff]
  constructor
  · intro h
    cases hv : validate_csv dirty_values with
    | false => rfl
    | true => exact absurd h (deserialize_not_validation dirty_values schema hv)
  · intro h
    unfold deserialize
    rw [h]
    rfl

/-- The grand-total component of the accumulation loop agrees with
`get_total_duration` (shifted by the accumulator's running total). -/
theorem accumulate_total_eq (l : List Activity) :
    ∀ acc, (accumulate_durations acc l).map (fun r => r.2) =
      (get_total_duration l).map (fun t => acc.2 + t) := by
  induction l with
  | nil => intro acc; simp [accumulate_durations, get_total_duration]
  | cons a rest ih =>
    intro acc
    unfold accumulate_durations get_total_duration
    cases hd : a.get_duration_in_minutes with
    | none => simp
    | some d =>
      rw [ih]
      cases hr : get_total_duration rest with
      | none => simp
      | some t => simp; omega

/-- Adding an entry never empties the per-type totals. -/
theorem add_total_ne_nil (totals : List (String × Int)) (key : String) (v : Int) :
    add_total totals key v ≠ [] := by
  cases totals with
  | nil => simp [add_total]
  | cons p rest =>
    rcases p with ⟨k0, v0⟩
    simp only [add_total]
    split <;> simp

/-- The accumulation loop never empties a non-empty totals list. -/
theorem accumulate_keeps_ne_nil (l : List Activity) :
    ∀ acc r, acc.1 ≠ [] → accumulate_durations acc l = some r → r.1 ≠ [] := by
  induction l with
  | nil =>
    intro acc r hne h
    simp only [accumulate_durations] at h
    rw [← Option.some.inj h]
    exact hne
  | cons a rest ih =>
    intro acc r hne h
    unfold accumulate_durations at h
    cases hd : a.get_duration_in_minutes with
    | none => rw [hd] at h; exact absurd h (by simp)
    | some d =>
      rw [hd] at h
      exact ih _ r (add_total_ne_nil acc.1 a.activity_type d) h

/-- Stable insertion produces a non-empty list. -/
theorem insert_desc_ne_nil (x : String × Int) (l : List (String × Int)) :
    insert_desc x l ≠ [] := by
  cases l with
  | nil => simp [insert_desc]
  | cons y ys =>
    simp only [insert_desc]
    split <;> simp

/-- The insertion fold never empties a non-empty accumulator. -/
theorem sort_fold_ne_nil (l : List (String × Int)) :
    ∀ acc, acc ≠ [] → l.foldl (fun acc x => insert_desc x acc) acc ≠ [] := by
  induction l with
  | nil => intro acc h; simpa using h
  | cons x xs ih =>
    intro acc h
    rw [List.foldl_cons]
    exact ih _ (insert_desc_ne_nil x acc)

/-- Sorting preserves non-emptiness. -/
theorem sort_by_duration_ne_nil (l : List (String × Int)) (h : l ≠ []) :
    sort_by_duration l ≠ [] := by
  cases l with
  | nil => contradiction
  | cons x xs =>
    unfold sort_by_duration
    rw [List.foldl_cons]
    exact sort_fold_ne_nil xs _ (insert_desc_ne_nil x [])

/-- With a zero grand total, the row loop hits the division by zero on its
first row. -/
theorem rows_zero_total (l : List (String × Int)) (h : l ≠ []) :
    duration_table_rows 0 l = none := by
  cases l with
  | nil => contradiction
  | cons p rest =>
    rcases p with ⟨k, v⟩
    simp [duration_table_rows]

/-- C3 counterexample: a single zero-duration activity (end equals start).
The grand total is zero, every branch of the claim's premise holds, yet the
rendering is `none` — the model of the `ZeroDivisionError` that Python
raises at `duration / total_duration` — rather than an empty table. -/
theorem c3_counterexample :
    get_total_duration [⟨63745434000, 63745434000, "work"⟩] = some 0 ∧
    create_activity_duration_report [⟨63745434000, 63745434000, "work"⟩] = none :=
  ⟨by decide, by decide⟩

/-- C3 (amended): for every non-empty activity list whose grand total is
zero minutes, rendering the breakdown table reaches the unguarded division
`duration / total_duration` and fails with a division-by-zero error
(`none`); the table is not treated as empty. -/
theorem c3_amended_zero_total (l : List Activity) (hne : l ≠ [])
    (h : get_total_duration l = some 0) :
    create_activity_duration_report l = none := by
  cases l with
  | nil => contradiction
  | cons a rest =>
    have hacc := accumulate_total_eq (a :: rest) ([], 0)
    rw [h] at hacc
    unfold create_activity_duration_report
    cases hA : accumulate_durations ([], 0) (a :: rest) with
    | none => simp
    | some r =>
      rw [hA] at hacc
      simp only [Option.map_some', Option.some.injEq] at hacc
      rcases r with ⟨totals, total⟩
      have htotal : total = 0 := by simpa using hacc
      have hnil : totals ≠ [] := by
        unfold accumulate_durations at hA
        cases hd : a.get_duration_in_minutes with
        | none => rw [hd] at hA; exact absurd hA (by simp)
        | some d =>
          rw [hd] at hA
          exact accumulate_keeps_ne_nil rest _ (totals, total)
            (add_total_ne_nil [] a.activity_type d) hA
      subst htotal
      simp [rows_zero_total (sort_by_duration totals)
        (sort_by_duration_ne_nil totals hnil)]

/-- C3 witness: two distinct zero-duration activity types on 2021-01-05. -/
theorem c3_amended_zero_total_witness :
    ([⟨63745434000, 63745434000, "work"⟩, ⟨63745438500, 63745438500, "play"⟩] :
      List Activity) ≠ [] ∧
    get_total_duration
      [⟨63745434000, 63745434000, "work"⟩, ⟨63745438500, 63745438500, "play"⟩] =
      some 0 ∧
    create_activity_duration_report
      [⟨63745434000, 63745434000, "work"⟩, ⟨63745438500, 63745438500, "play"⟩] =
      none :=
  ⟨by decide, by decide,
   c3_amended_zero_total
     [⟨63745434000, 63745434000, "work"⟩, ⟨63745438500, 63745438500, "play"⟩]
     (by decide) (by decide)⟩

/-- A successful This-Week selection always contains the anchoring last
activity, hence is non-empty. -/
theorem this_week_ne_nil (l w : List Activity)
    (h : get_this_week_activities l = some w) : w ≠ [] := by
  unfold get_this_week_activities at h
  cases hl : l.getLast? with
  | none => rw [hl] at h; exact absurd h (by simp)
  | some a =>
    rw [hl] at h
    have hmem : a ∈ w := by
      rw [← Option.some.inj h]
      exact List.mem_filter.mpr
        ⟨List.mem_of_getLast?_eq_some hl, by simp [get_sunday_before_le]⟩
    exact List.ne_nil_of_mem hmem

/-- A successful Today selection always contains the anchoring last
activity, hence is non-empty. -/
theorem daily_ne_nil (l w : List Activity)
    (h : get_daily_activities l = some w) : w ≠ [] := by
  unfold get_daily_activities at h
  cases hl : l.getLast? with
  | none => rw [hl] at h; exact absurd h (by simp)
  | some a =>
    rw [hl] at h
    have hmem : a ∈ w := by
      rw [← Option.some.inj h]
      exact List.mem_filter.mpr ⟨List.mem_of_getLast?_eq_some hl, by simp⟩
    exact List.ne_nil_of_mem hmem

/-- C2 counterexample: a single activity on Tuesday 2021-01-05.  The input
is non-empty, its Last-Week subset is empty, yet the rendered Last-Week
section is not the empty string — it still carries the heading and the two
zero-valued footer lines. -/
theorem c2_counterexample :
    ([⟨63745434000, 63745437600, "work"⟩] : List Activity) ≠ [] ∧
    get_last_week_activities [⟨63745434000, 63745437600, "work"⟩] = some [] ∧
    create_previous_week_activity_report [⟨63745434000, 63745437600, "work"⟩] ≠
      some "" :=
  ⟨by decide, by decide, by decide⟩

/-- C2 (amended): the empty-string short-circuit only triggers on an empty
input list.  For a non-empty input whose Last-Week subset is empty the
section still renders the `# Last Week` heading, an empty table and
zero-valued footers; and for non-empty input the This-Week and Today
subsets always contain the anchoring last activity, so their premise
"window subset empty" is unsatisfiable. -/
theorem c2_amended_sections (l w : List Activity) :
    (get_last_week_activities l = some [] →
      create_previous_week_activity_report l =
        some ("# Last Week\n\n\n\n**Total Duration:** 0.00h\n**Total Break Duration:** 0.00h")) ∧
    (get_this_week_activities l = some w → w ≠ []) ∧
    (get_daily_activities l = some w → w ≠ []) := by
  refine ⟨?_, this_week_ne_nil l w, daily_ne_nil l w⟩
  intro hw
  cases l with
  | nil => exact absurd hw (by simp [get_last_week_activities])
  | cons a rest =>
    unfold create_previous_week_activity_report
    rw [hw]
    rfl

/-- C2 witness: the singleton list of the counterexample, instantiating all
three conjuncts. -/
theorem c2_amended_sections_witness :
    create_previous_week_activity_report [⟨63745434000, 63745437600, "work"⟩] =
      some ("# Last Week\n\n\n\n**Total Duration:** 0.00h\n**Total Break Duration:** 0.00h") ∧
    ([⟨63745434000, 63745437600, "work"⟩] : List Activity) ≠ [] :=
  ⟨(c2_amended_sections [⟨63745434000, 63745437600, "work"⟩]
      [⟨63745434000, 63745437600, "work"⟩]).1 (by decide),
   (c2_amended_sections [⟨63745434000, 63745437600, "work"⟩]
      [⟨63745434000, 63745437600, "work"⟩]).2.1 (by decide)⟩

/-- C4 counterexample: two activities, one in the week before the other.
Applying the Last-Week selector once yields the singleton `[a1]`; applying
it to that output re-anchors on `a1` itself and yields `[]` — the selector
is not idempotent.  (The timestamps are 2020-12-30 09:00 and
2021-01-05 09:00, one minute long each.) -/
theorem c4_counterexample :
    get_last_week_activities
      [⟨63744915600, 63744915660, "work"⟩, ⟨63745434000, 63745434060, "work"⟩] =
      some [⟨63744915600, 63744915660, "work"⟩] ∧
    get_last_week_activities [⟨63744915600, 63744915660, "work"⟩] = some [] ∧
    ([⟨63744915600, 63744915660, "work"⟩] : List Activity) ≠ [] :=
  ⟨by decide, by decide, by decide⟩

/-- C4 (amended): the Today and This-Week selectors are idempotent (their
output always retains the anchoring last activity, so re-filtering changes
nothing; the `All` window is the identity and trivially idempotent), but the
Last-Week selector is not: it re-anchors on its own output's last activity,
shifting the window one week back. -/
theorem c4_amended_idempotence (l w : List Activity) :
    (get_daily_activities l = some w → get_daily_activities w = some w) ∧
    (get_this_week_activities l = some w → get_this_week_activities w = some w) := by
  constructor
  · intro h
    unfold get_daily_activities at h ⊢
    cases hl : l.getLast? with
    | none => rw [hl] at h; exact absurd h (by simp)
    | some a =>
      rw [hl] at h
      have hw : l.filter (fun x => decide (dateOf x.start = dateOf a.start)) = w :=
        Option.some.inj h
      have hlast : w.getLast? = some a := by
        rw [← hw]
        exact getLast?_filter_of_pred _ l a hl (by simp)
      rw [hlast, ← hw]
      simp [List.filter_filter]
  · intro h
    unfold get_this_week_activities at h ⊢
    cases hl : l.getLast? with
    | none => rw [hl] at h; exact absurd h (by simp)
    | some a =>
      rw [hl] at h
      have hw : l.filter (fun x => decide (get_sunday_before a.start ≤ x.start)) = w :=
        Option.some.inj h
      have hlast : w.getLast? = some a := by
        rw [← hw]
        exact getLast?_filter_of_pred _ l a hl (by simp [get_sunday_before_le])
      rw [hlast, ← hw]
      simp [List.filter_filter]

/-- C4 witness: the two-activity list of the counterexample under the Today
and This-Week selectors, whose outputs re-select to themselves. -/
theorem c4_amended_idempotence_witness :
    get_daily_activities [⟨63745434000, 63745434060, "work"⟩] =
      some [⟨63745434000, 63745434060, "work"⟩] ∧
    get_this_week_activities [⟨63745434000, 63745434060, "work"⟩] =
      some [⟨63745434000, 63745434060, "work"⟩] :=
  ⟨(c4_amended_idempotence
      [⟨63744915600, 63744915660, "work"⟩, ⟨63745434000, 63745434060, "work"⟩]
      [⟨63745434000, 63745434060, "work"⟩]).1 (by decide),
   (c4_amended_idempotence
      [⟨63744915600, 63744915660, "work"⟩, ⟨63745434000, 63745434060, "work"⟩]
      [⟨63745434000, 63745434060, "work"⟩]).2 (by decide)⟩

/-- Membership in a successful This-Week selection. -/
theorem mem_this_week_iff (l w : List Activity) (a x : Activity)
    (hl : l.getLast? = some a)
    (h : get_this_week_activities l = some w) :
    x ∈ w ↔ x ∈ l ∧ get_sunday_before a.start ≤ x.start := by
  unfold get_this_week_activities at h
  rw [hl] at h
  rw [← Option.some.inj h]
  simp [List.mem_filter]

/-- Membership in a successful Last-Week selection. -/
theorem mem_last_week_iff (l w : List Activity) (a x : Activity)
    (hl : l.getLast? = some a)
    (h : get_last_week_activities l = some w) :
    x ∈ w ↔ x ∈ l ∧
      (get_sunday_before a.start - 7 * 86400 ≤ x.start ∧
       x.start < get_sunday_before a.start) := by
  unfold get_last_week_activities at h
  rw [hl] at h
  rw [← Option.some.inj h]
  simp [List.mem_filter]

/-- C5: the boundary used by both weekly selectors is the claim's formula —
midnight of the last activity's day minus `(weekday + 1) mod 7` days (with
Monday = 0); it is a Sunday midnight; This-Week selects exactly the
activities starting at or after it, Last-Week exactly those starting in the
seven days before it. -/
theorem c5_week_boundary (l tw lw : List Activity) (a x : Activity) (S : Int)
    (hl : l.getLast? = some a)
    (hS : S = 86400 * (a.start / 86400) - 86400 * (((a.start / 86400) % 7 + 1) % 7))
    (htw : get_this_week_activities l = some tw)
    (hlw : get_last_week_activities l = some lw) :
    get_sunday_before a.start = S ∧ S % 86400 = 0 ∧ weekday S = 6 ∧
    (x ∈ tw ↔ x ∈ l ∧ S ≤ x.start) ∧
    (x ∈ lw ↔ x ∈ l ∧ (S - 7 * 86400 ≤ x.start ∧ x.start < S)) := by
  have hsb : get_sunday_before a.start = S := by
    subst hS
    unfold get_sunday_before get_date_at_midnight get_days_since_sunday weekday
    omega
  refine ⟨hsb, ?_, ?_, ?_, ?_⟩
  · subst hS; omega
  · subst hS; unfold weekday; omega
  · rw [← hsb]; exact mem_this_week_iff l tw a x hl htw
  · rw [← hsb]; exact mem_last_week_iff l lw a x hl hlw

/-- C5 witness: last activity on Tuesday 2021-01-05 09:00; the boundary is
Sunday 2021-01-03 00:00:00, the earlier activity (Wednesday 2020-12-30)
falls in Last Week and not in This Week. -/
theorem c5_week_boundary_witness :
    get_sunday_before (63745434000 : Int) = 63745228800 ∧
    (63745228800 : Int) % 86400 = 0 ∧ weekday 63745228800 = 6 ∧
    ((⟨63744915600, 63744915660, "work"⟩ : Activity) ∈
        [(⟨63745434000, 63745434060, "work"⟩ : Activity)] ↔
      (⟨63744915600, 63744915660, "work"⟩ : Activity) ∈
        [(⟨63744915600, 63744915660, "work"⟩ : Activity),
         (⟨63745434000, 63745434060, "work"⟩ : Activity)] ∧
      (63745228800 : Int) ≤ 63744915600) ∧
    ((⟨63744915600, 63744915660, "work"⟩ : Activity) ∈
        [(⟨63744915600, 63744915660, "work"⟩ : Activity)] ↔
      (⟨63744915600, 63744915660, "work"⟩ : Activity) ∈
        [(⟨63744915600, 63744915660, "work"⟩ : Activity),
         (⟨63745434000, 63745434060, "work"⟩ : Activity)] ∧
      ((63745228800 : Int) - 7 * 86400 ≤ 63744915600 ∧
       (63744915600 : Int) < 63745228800)) :=
  c5_week_boundary
    [⟨63744915600, 63744915660, "work"⟩, ⟨63745434000, 63745434060, "work"⟩]
    [⟨63745434000, 63745434060, "work"⟩] [⟨63744915600, 63744915660, "work"⟩]
    ⟨63745434000, 63745434060, "work"⟩ ⟨63744915600, 63744915660, "work"⟩
    63745228800 (by decide) (by decide) (by decide) (by decide)

/-- C9: for any activity list with last activity `a`, the This-Week and
Last-Week windows are disjoint, and every member of the list lies in exactly
one of This Week, Last Week, or "before the previous Sunday". -/
theorem c9_partition (l tw lw : List Activity) (a x : Activity)
    (hl : l.getLast? = some a)
    (htw : get_this_week_activities l = some tw)
    (hlw : get_last_week_activities l = some lw) :
    ¬(x ∈ tw ∧ x ∈ lw) ∧
    (x ∈ l →
      (x ∈ tw ∧ x ∉ lw ∧ ¬x.start < get_sunday_before a.start - 7 * 86400) ∨
      (x ∉ tw ∧ x ∈ lw ∧ ¬x.start < get_sunday_before a.start - 7 * 86400) ∨
      (x ∉ tw ∧ x ∉ lw ∧ x.start < get_sunday_before a.start - 7 * 86400)) := by
  have htwm := mem_this_week_iff l tw a x hl htw
  have hlwm := mem_last_week_iff l lw a x hl hlw
  constructor
  · rintro ⟨h1, h2⟩
    have ht := htwm.mp h1
    have hb := hlwm.mp h2
    omega
  · intro hx
    by_cases h1 : get_sunday_before a.start ≤ x.start
    · refine Or.inl ⟨htwm.mpr ⟨hx, h1⟩, fun hc => ?_, by omega⟩
      have := hlwm.mp hc
      omega
    · by_cases h2 : get_sunday_before a.start - 7 * 86400 ≤ x.start
      · refine Or.inr (Or.inl ⟨fun hc => ?_, hlwm.mpr ⟨hx, h2, by omega⟩, by omega⟩)
        have := htwm.mp hc
        omega
      · refine Or.inr (Or.inr ⟨fun hc => ?_, fun hc => ?_, by omega⟩)
        · have := htwm.mp hc
          omega
        · have := hlwm.mp hc
          omega

/-- C9 witness: the two-activity list anchored at Tuesday 2021-01-05 — the
earlier activity is in Last Week only, and the windows are disjoint. -/
theorem c9_partition_witness :
    ¬((⟨63744915600, 63744915660, "work"⟩ : Activity) ∈
        [(⟨63745434000, 63745434060, "work"⟩ : Activity)] ∧
      (⟨63744915600, 63744915660, "work"⟩ : Activity) ∈
        [(⟨63744915600, 63744915660, "work"⟩ : Activity)]) ∧
    ((⟨63744915600, 63744915660, "work"⟩ : Activity) ∈
        [(⟨63744915600, 63744915660, "work"⟩ : Activity),
         (⟨63745434000, 63745434060, "work"⟩ : Activity)] →
      ((⟨63744915600, 63744915660, "work"⟩ : Activity) ∈
          [(⟨63745434000, 63745434060, "work"⟩ : Activity)] ∧
        (⟨63744915600, 63744915660, "work"⟩ : Activity) ∉
          [(⟨63744915600, 63744915660, "work"⟩ : Activity)] ∧
        ¬(63744915600 : Int) <
            get_sunday_before (63745434000 : Int) - 7 * 86400) ∨
      ((⟨63744915600, 63744915660, "work"⟩ : Activity) ∉
          [(⟨63745434000, 63745434060, "work"⟩ : Activity)] ∧
        (⟨63744915600, 63744915660, "work"⟩ : Activity) ∈
          [(⟨63744915600, 63744915660, "work"⟩ : Activity)] ∧
        ¬(63744915600 : Int) <
            get_sunday_before (63745434000 : Int) - 7 * 86400) ∨
      ((⟨63744915600, 63744915660, "work"⟩ : Activity) ∉
          [(⟨63745434000, 63745434060, "work"⟩ : Activity)] ∧
        (⟨63744915600, 63744915660, "work"⟩ : Activity) ∉
          [(⟨63744915600, 63744915660, "work"⟩ : Activity)] ∧
        (63744915600 : Int) <
            get_sunday_before (63745434000 : Int) - 7 * 86400)) :=
  c9_partition
    [⟨63744915600, 63744915660, "work"⟩, ⟨63745434000, 63745434060, "work"⟩]
    [⟨63745434000, 63745434060, "work"⟩] [⟨63744915600, 63744915660, "work"⟩]
    ⟨63745434000, 63745434060, "work"⟩ ⟨63744915600, 63744915660, "work"⟩
    (by decide) (by decide) (by decide)

/-- Splitting never produces the empty list of pieces. -/
theorem split_pred_ne_nil (p : Char → Bool) (cs : List Char) :
    split_pred p cs ≠ [] := by
  induction cs with
  | nil => simp [split_pred]
  | cons c rest ih =>
    simp only [split_pred]
    split
    · simp
    · cases h : split_pred p rest with
      | nil => simp
      | cons hd tl => simp

/-- Splitting is a homomorphism across an explicit separator character. -/
theorem split_pred_append (p : Char → Bool) (xs ys : List Char) (c : Char)
    (hc : p c = true) :
    split_pred p (xs ++ c :: ys) = split_pred p xs ++ split_pred p ys := by
  induction xs with
  | nil => simp [split_pred, hc]
  | cons c2 rest ih =>
    simp only [List.cons_append, split_pred, List.append_eq]
    by_cases hc2 : p c2 = true
    · rw [if_pos hc2, if_pos hc2, ih]
      simp
    · rw [if_neg hc2, if_neg hc2, ih]
      cases h : split_pred p rest with
      | nil => exact absurd h (split_pred_ne_nil p rest)
      | cons hd tl => simp

/-- A separator-free string splits into exactly itself. -/
theorem split_pred_no_match (p : Char → Bool) (cs : List Char)
    (h : ∀ c ∈ cs, p c = false) :
    split_pred p cs = [cs] := by
  induction cs with
  | nil => simp [split_pred]
  | cons c rest ih =>
    simp only [split_pred]
    rw [if_neg (by simp [h c (List.mem_cons_self c rest)])]
    rw [ih (fun c2 hm => h c2 (List.mem_cons_of_mem c hm))]

/-- Whitespace-run tokenisation is a homomorphism across an explicit space. -/
theorem split_ws_append (A B : List Char) :
    split_ws (A ++ ' ' :: B) = split_ws A ++ split_ws B := by
  unfold split_ws
  rw [split_pred_append py_isspace A B ' ' (by decide), List.filter_append]

/-- A non-empty whitespace-free list is a single token. -/
theorem split_ws_no_ws (T : List Char) (hne : T ≠ [])
    (hT : ∀ c ∈ T, py_isspace c = false) :
    split_ws T = [T] := by
  unfold split_ws
  rw [split_pred_no_match py_isspace T hT]
  simp [hne]

/-- A parsed time of day lies within the day. -/
theorem parse_time_bounds (cs : List Char) (t : Int)
    (h : parse_time_of_day cs = some t) : 0 ≤ t ∧ t < 86400 := by
  unfold parse_time_of_day at h
  rcases hs : split_char ':' cs with _ | ⟨hs1, _ | ⟨hs2, _ | ⟨hs3, r⟩⟩⟩ <;> rw [hs] at h
  case nil => exact absurd h (by simp)
  case cons.nil => exact absurd h (by simp)
  case cons.cons.cons => exact absurd h (by simp)
  replace h : (match parse_two_digit hs1, parse_two_digit hs2 with
    | some hv, some mv =>
      if hv ≤ 23 ∧ mv ≤ 59 then some ((3600 * hv + 60 * mv : Nat) : Int) else none
    | _, _ => none) = some t := h
  cases hh : parse_two_digit hs1 with
  | none => rw [hh] at h; exact absurd h (by simp)
  | some hv =>
    cases hm : parse_two_digit hs2 with
    | none => rw [hh, hm] at h; exact absurd h (by simp)
    | some mv =>
      rw [hh, hm] at h
      replace h : (if hv ≤ 23 ∧ mv ≤ 59
          then some ((3600 * hv + 60 * mv : Nat) : Int) else none) = some t := h
      split at h
      · rename_i hb
        have := Option.some.inj h
        omega
      · exact absurd h (by simp)

/-- Shape of a successful `strptime` on a string whose final component is
whitespace-free: the three day-determining fields are exactly the
whitespace-run tokens of the prefix, the time comes from the last component,
and the result decomposes as whole days plus a time of day. -/
theorem strptime_structure (P T : List Char)
    (hT : ∀ c ∈ T, py_isspace c = false) (v : Int)
    (h : strptime_year_date_time ⟨P ++ ' ' :: T⟩ = some v) :
    ∃ p1 p2 p3 y m d t,
      split_ws P = [p1, p2, p3] ∧
      parse_year p1 = some y ∧ month_from_abbrev p2 = some m ∧
      parse_two_digit p3 = some d ∧ parse_time_of_day T = some t ∧
      (1 ≤ d ∧ d ≤ days_in_month y m) ∧
      v = 86400 * (day_number y m d : Int) + t := by
  have hsp : py_isspace ' ' = true := by decide
  unfold strptime_year_date_time at h
  cases T with
  | nil =>
    rw [show (String.mk (P ++ ' ' :: ([] : List Char))).data =
        P ++ ' ' :: ([] : List Char) from rfl] at h
    have htok : strptime_tokens (P ++ ' ' :: ([] : List Char)) = none := by
      unfold strptime_tokens
      rw [show (P ++ ' ' :: ([] : List Char)) = P ++ [' '] from rfl,
        List.getLast?_concat]
      cases hP : (P ++ [' ']).head? with
      | none => rfl
      | some c0 => simp [hsp]
    rw [htok] at h
    exact absurd (show (none : Option Int) = some v from h) (by simp)
  | cons c1 T2 =>
    rw [show (String.mk (P ++ ' ' :: c1 :: T2)).data = P ++ ' ' :: c1 :: T2
      from rfl] at h
    obtain ⟨x, hlast⟩ : ∃ x, (c1 :: T2).getLast? = some x :=
      ⟨_, List.getLast?_eq_getLast _ (by simp)⟩
    have hxws : py_isspace x = false := hT x (List.mem_of_getLast?_eq_some hlast)
    have hlast2 : (P ++ ' ' :: c1 :: T2).getLast? = some x := by
      rw [List.getLast?_append, List.getLast?_cons_cons, hlast]
      rfl
    cases P with
    | nil =>
      have htok : strptime_tokens (([] : List Char) ++ ' ' :: c1 :: T2) = none := by
        unfold strptime_tokens
        rw [show (([] : List Char) ++ ' ' :: c1 :: T2).head? = some ' ' from rfl,
          hlast2]
        simp [hsp]
      rw [htok] at h
      exact absurd (show (none : Option Int) = some v from h) (by simp)
    | cons c0 P2 =>
      cases hc0 : py_isspace c0 with
      | true =>
        have htok : strptime_tokens ((c0 :: P2) ++ ' ' :: c1 :: T2) = none := by
          unfold strptime_tokens
          rw [show ((c0 :: P2) ++ ' ' :: c1 :: T2).head? = some c0 from rfl,
            hlast2]
          simp [hc0]
        rw [htok] at h
        exact absurd (show (none : Option Int) = some v from h) (by simp)
      | false =>
        have htok : strptime_tokens ((c0 :: P2) ++ ' ' :: c1 :: T2) =
            some (split_ws (c0 :: P2) ++ [c1 :: T2]) := by
          unfold strptime_tokens
          rw [show ((c0 :: P2) ++ ' ' :: c1 :: T2).head? = some c0 from rfl,
            hlast2]
          simp only [hc0, hxws, Bool.or_self, Bool.false_eq_true, if_false,
            Option.some.injEq]
          rw [split_ws_append, split_ws_no_ws (c1 :: T2) (by simp) hT]
        rw [htok] at h
        rcases hp : split_ws (c0 :: P2) with _ | ⟨p1, _ | ⟨p2, _ | ⟨p3, _ | ⟨p4, r⟩⟩⟩⟩ <;>
          rw [hp] at h
        case nil =>
          exact absurd (show (none : Option Int) = some v from h) (by simp)
        case cons.nil =>
          exact absurd (show (none : Option Int) = some v from h) (by simp)
        case cons.cons.nil =>
          exact absurd (show (none : Option Int) = some v from h) (by simp)
        case cons.cons.cons.cons =>
          rcases r with _ | ⟨p5, r2⟩
          · exact absurd (show (none : Option Int) = some v from h) (by simp)
          · exact absurd (show (none : Option Int) = some v from h) (by simp)
        case cons.cons.cons.nil =>
        replace h : (match parse_year p1, month_from_abbrev p2, parse_two_digit p3,
            parse_time_of_day (c1 :: T2) with
          | some y, some m, some d, some t =>
            if 1 ≤ d ∧ d ≤ days_in_month y m
            then some (86400 * (day_number y m d : Int) + t) else none
          | _, _, _, _ => none) = some v := h
        cases hy : parse_year p1 with
        | none =>
          rw [hy] at h
          exact absurd (show (none : Option Int) = some v from h) (by simp)
        | some y =>
          cases hm : month_from_abbrev p2 with
          | none =>
            rw [hy, hm] at h
            exact absurd (show (none : Option Int) = some v from h) (by simp)
          | some m =>
            cases hd : parse_two_digit p3 with
            | none =>
              rw [hy, hm, hd] at h
              exact absurd (show (none : Option Int) = some v from h) (by simp)
            | some d =>
              cases ht : parse_time_of_day (c1 :: T2) with
              | none =>
                rw [hy, hm, hd, ht] at h
                exact absurd (show (none : Option Int) = some v from h) (by simp)
              | some t =>
                rw [hy, hm, hd, ht] at h
                replace h : (if 1 ≤ d ∧ d ≤ days_in_month y m
                  then some (86400 * (day_number y m d : Int) + t) else none) =
                    some v := h
                split at h
                · rename_i hb
                  exact ⟨p1, p2, p3, y, m, d, t, rfl, hy, hm, hd, rfl, hb,
                    (Option.some.inj h).symm⟩
                · exact absurd h (by simp)

/-- Two successful parses that share their day-determining prefix and have
whitespace-free time components land on the same calendar day. -/
theorem strptime_same_day (P T1 T2 : List Char)
    (hT1 : ∀ c ∈ T1, py_isspace c = false)
    (hT2 : ∀ c ∈ T2, py_isspace c = false) (v1 v2 : Int)
    (hv1 : strptime_year_date_time ⟨P ++ ' ' :: T1⟩ = some v1)
    (hv2 : strptime_year_date_time ⟨P ++ ' ' :: T2⟩ = some v2) :
    v1 / 86400 = v2 / 86400 := by
  obtain ⟨p1, p2, p3, y, m, d, t, hp, hy, hm, hd, ht, hb, hv⟩ :=
    strptime_structure P T1 hT1 v1 hv1
  obtain ⟨q1, q2, q3, y2, m2, d2, t2, hq, hy2, hm2, hd2, ht2, hb2, hv2'⟩ :=
    strptime_structure P T2 hT2 v2 hv2
  rw [hp] at hq
  injection hq with e1 hq
  injection hq with e2 hq
  injection hq with e3 _
  subst e1; subst e2; subst e3
  rw [hy] at hy2
  rw [hm] at hm2
  rw [hd] at hd2
  obtain rfl : y = y2 := Option.some.inj hy2
  obtain rfl : m = m2 := Option.some.inj hm2
  obtain rfl : d = d2 := Option.some.inj hd2
  have hbt1 := parse_time_bounds T1 t ht
  have hbt2 := parse_time_bounds T2 t2 ht2
  omega

/-- If the date-building step succeeds and neither (stripped) time field
contains a whitespace character, the two timestamps fall on the same
calendar date. -/
theorem build_activity_same_day (y d ts te τ : String) (a : Activity)
    (hts : ∀ c ∈ ts.data, py_isspace c = false)
    (hte : ∀ c ∈ te.data, py_isspace c = false)
    (h : build_activity y d ts te τ = .ok a) :
    dateOf a.start = dateOf a.end_ := by
  have hdata : ∀ T : String, (y ++ " " ++ d ++ " " ++ T) =
      (⟨(y.data ++ ' ' :: d.data) ++ ' ' :: T.data⟩ : String) := by
    intro T
    have hsp : (" " : String).data = [' '] := rfl
    refine (rfl : (y ++ " " ++ d ++ " " ++ T) =
      ⟨(y ++ " " ++ d ++ " " ++ T).data⟩).trans (congrArg String.mk ?_)
    simp [String.data_append, hsp]
  have hT2 : ∀ c ∈ (if te = "" then ts else te).data, py_isspace c = false := by
    split
    · exact hts
    · exact hte
  unfold build_activity at h
  replace h : (match strptime_year_date_time (y ++ " " ++ d ++ " " ++ ts),
      strptime_year_date_time (y ++ " " ++ d ++ " " ++ (if te = "" then ts else te)) with
    | some s, some e => Except.ok (⟨s, e, τ⟩ : Activity)
    | _, _ => Except.error ParseFailure.dateParseError) = Except.ok a := h
  cases hs1 : strptime_year_date_time (y ++ " " ++ d ++ " " ++ ts) with
  | none =>
    rw [hs1] at h
    exact absurd (show (Except.error ParseFailure.dateParseError :
      Except ParseFailure Activity) = Except.ok a from h) (by simp)
  | some s =>
    cases hs2 : strptime_year_date_time
        (y ++ " " ++ d ++ " " ++ (if te = "" then ts else te)) with
    | none =>
      rw [hs1, hs2] at h
      exact absurd (show (Except.error ParseFailure.dateParseError :
        Except ParseFailure Activity) = Except.ok a from h) (by simp)
    | some e =>
      rw [hs1, hs2] at h
      replace h : Except.ok (⟨s, e, τ⟩ : Activity) = Except.ok a := h
      obtain rfl : (⟨s, e, τ⟩ : Activity) = a := Except.ok.inj h
      rw [hdata ts] at hs1
      rw [hdata (if te = "" then ts else te)] at hs2
      exact strptime_same_day (y.data ++ ' ' :: d.data) ts.data
        (if te = "" then ts else te).data hts hT2 s e hs1 hs2

/-- C10 counterexample: the record's single `date` field is just `"Jan"`, and
the day numbers ride in on the time fields (`"05 09:00"` / `"07 10:00"`).
The parser accepts the record, but start and end land on different calendar
dates (2021-01-05 vs 2021-01-07) — "accepted implies same date" is false. -/
theorem c10_counterexample :
    (deserialize
        [("year", "2021"), ("date", "Jan"), ("time_start", "05 09:00"),
         ("time_end", "07 10:00"), ("activity_type", "work")] "work").map
      (fun a => (dateOf a.start, dateOf a.end_)) =
      .ok (737794, 737796) ∧
    (737794 : Int) ≠ 737796 :=
  ⟨rfl, by decide⟩

/-- C10 (amended): for every record the parser accepts whose (stripped)
`time_start` and `time_end` values contain no whitespace character (in the
sense of a regex `\s`, the whitespace that a `strptime` format space can
absorb) — in particular every record whose time fields are plain `"HH:MM"`
strings — the start and end timestamps fall on the same calendar date,
because both are built from the record's single `date` (and `year`) field;
consequently such an activity cannot span midnight and a later-than-end
start yields `end < start` on the same date. -/
theorem c10_amended_same_date (dirty_values : Record) (schema : String)
    (a : Activity)
    (h : deserialize dirty_values schema = .ok a)
    (hts : ∀ v, get_clean_value dirty_values "time_start" = some v →
      ∀ c ∈ (pystrip v).data, py_isspace c = false)
    (hte : ∀ v, get_clean_value dirty_values "time_end" = some v →
      ∀ c ∈ (pystrip v).data, py_isspace c = false) :
    dateOf a.start = dateOf a.end_ := by
  unfold deserialize at h
  split at h
  · exact absurd h (by simp)
  · split at h
    · exact absurd h (by simp)
    · split at h
      · dsimp only at h
        split at h
        · exact absurd h (by simp)
        · rename_i y0 d0 ts0 te0 hy0 hd0 hts0 hte0 hsch
          exact build_activity_same_day _ _ _ _ _ a (hts ts0 hts0) (hte te0 hte0) h
      · dsimp only at h
        split at h
        · exact absurd h (by simp)
        · exact absurd h (by simp)

/-- C10 witness: a clean record for 2021-01-05 starting at 23:00 and ending
at 01:00 — parsed, same calendar date, and the end precedes the start. -/
theorem c10_amended_same_date_witness :
    dateOf (63745484400 : Int) = dateOf 63745405200 ∧
    (63745405200 : Int) < 63745484400 :=
  ⟨c10_amended_same_date
    [("year", "2021"), ("date", "Jan 05"), ("time_start", "23:00"),
     ("time_end", "01:00"), ("activity_type", "work")] "work"
    ⟨63745484400, 63745405200, "work"⟩ rfl
    (by
      intro v hv
      have h2 : (some "23:00" : Option String) = some v := hv
      cases h2
      decide)
    (by
      intro v hv
      have h2 : (some "01:00" : Option String) = some v := hv
      cases h2
      decide),
   by decide⟩
